import Mathlib

/-!
Shallow embedding of the helm chart inflation generator plugin
(`plugin/builtin/helmchartinflationgenerator/HelmChartInflationGenerator.go`).

The plugin resolves a configuration (filling defaults from a freshly
allocated temporary working directory), checks that the external `helm`
binary is major version 3, pulls the chart when it is not already present
under `<chartHome>/<chartName>`, renders it with `helm template`, and
removes the temporary directory on every exit path.

Filesystem and subprocess interaction is modelled by an explicit oracle
(`World`) and an effect trace (`GenEffect` / `ConfigEffect`); Go standard
library `path.Join` / `path.Clean` are embedded faithfully below.
-/

namespace HelmGen

/-- Split a character list on `'/'`, keeping empty components, mirroring how
Go `path.Clean` walks the path elements between slashes. -/
def splitOnSlashAux : List Char → List Char → List (List Char)
  | acc, [] => [acc.reverse]
  | acc, '/' :: rest => acc.reverse :: splitOnSlashAux [] rest
  | acc, c :: rest => splitOnSlashAux (c :: acc) rest

/-- Split a character list on `'/'` into its slash-separated components. -/
def splitOnSlash (l : List Char) : List (List Char) :=
  splitOnSlashAux [] l

/-- The element-stack loop of Go `path.Clean`: empty and `.` components are
dropped; `..` pops a previous real component, is dropped at the root when
the path is rooted, and is kept when the path is relative and there is
nothing left to pop; other components are pushed.  The stack is kept in
reverse order (most recent component first). -/
def cleanStack (rooted : Bool) : List (List Char) → List (List Char) → List (List Char)
  | stack, [] => stack
  | stack, e :: rest =>
    if e = [] ∨ e = ['.'] then cleanStack rooted stack rest
    else if e = ['.', '.'] then
      match stack with
      | [] => if rooted then cleanStack rooted [] rest else cleanStack rooted [['.', '.']] rest
      | top :: below =>
        if top = ['.', '.'] then cleanStack rooted (['.', '.'] :: top :: below) rest
        else cleanStack rooted below rest
    else cleanStack rooted (e :: stack) rest

/-- Go `path.Clean`: lexical simplification of a slash-separated path
(drop empty and `.` elements, resolve `..`, keep a leading slash, return
`"."` for an empty result). -/
def goClean (p : String) : String :=
  match p.data with
  | [] => "."
  | c :: cs =>
    let rooted := c = '/'
    let stack := (cleanStack rooted [] (splitOnSlash (c :: cs))).reverse
    let body := List.intercalate ['/'] stack
    if rooted then String.mk ('/' :: body)
    else if body = [] then "." else String.mk body

/-- Go `path.Join`: all-empty input yields `""`; otherwise the elements
from the first non-empty one are joined with `'/'` and the result is
cleaned. -/
def goPathJoin (elems : List String) : String :=
  if elems.all (fun e => e = "") then ""
  else
    goClean (String.mk
      (List.intercalate ['/'] ((elems.map String.data).dropWhile (fun e => e = []))))

/-- The configuration fields of `types.HelmChartArgs` that the plugin reads
(all strings except the raw extra-argument list). -/
structure HelmChartArgs where
  chartName : String := ""
  chartVersion : String := ""
  chartRepoURL : String := ""
  chartRepoName : String := ""
  chartHome : String := ""
  helmBin : String := ""
  helmHome : String := ""
  values : String := ""
  releaseName : String := ""
  releaseNamespace : String := ""
  extraArgs : List String := []
  deriving Repr, DecidableEq

/-- The plugin state produced by `Config`: the resolved argument set plus
the temporary working directory allocated for the run. -/
structure Plugin where
  args : HelmChartArgs
  tmpDir : String
  deriving Repr, DecidableEq

/-- Filesystem and process side effects performed by `Config`.  Besides
unmarshalling (pure) and building the command closure (pure), the only
effect in the source is the `filesys.NewTmpConfirmedDir()` call. -/
inductive ConfigEffect where
  | allocTmpDir
  deriving Repr, DecidableEq

/-- `Config`: after unmarshalling succeeds, the source allocates the
temporary directory, then rejects an empty chart name, then fills the
defaults in order: chart home, repository alias `"stable"`, helm binary
`"helm"`, helm home, values file path (from the already-resolved chart
home).  `tmpDir` stands for the directory returned by
`filesys.NewTmpConfirmedDir()`; the effect trace records its allocation. -/
def Config (cfg : HelmChartArgs) (tmpDir : String) :
    List ConfigEffect × Except String Plugin :=
  let effects := [ConfigEffect.allocTmpDir]
  if cfg.chartName = "" then
    (effects, Except.error "chartName cannot be empty")
  else
    let chartHome :=
      if cfg.chartHome = "" then goPathJoin [tmpDir, "chart"] else cfg.chartHome
    let chartRepoName :=
      if cfg.chartRepoName = "" then "stable" else cfg.chartRepoName
    let helmBin := if cfg.helmBin = "" then "helm" else cfg.helmBin
    let helmHome :=
      if cfg.helmHome = "" then goPathJoin [tmpDir, ".helm"] else cfg.helmHome
    let values :=
      if cfg.values = "" then goPathJoin [chartHome, cfg.chartName, "values.yaml"]
      else cfg.values
    (effects, Except.ok
      { args := { cfg with
          chartHome := chartHome
          chartRepoName := chartRepoName
          helmBin := helmBin
          helmHome := helmHome
          values := values }
        tmpDir := tmpDir })

/-- The three isolation variables `runHelmCommand` sets, in source order. -/
def helmIsolationVars (helmHome : String) : List String :=
  ["HELM_CONFIG_HOME=" ++ helmHome,
   "HELM_CACHE_HOME=" ++ helmHome ++ "/.cache",
   "HELM_DATA_HOME=" ++ helmHome ++ "/.data"]

/-- The `cmd.Env` field after `cmd.Env = append(cmd.Env, ...)` in
`runHelmCommand`.  `exec.Command` leaves `Env` nil, so the append starts
from the empty slice; `none` would mean "inherit the caller's
environment". -/
def runHelmCmdEnv (helmHome : String) : Option (List String) :=
  some ([] ++ helmIsolationVars helmHome)

/-- Go `os/exec` semantics for the child environment: a nil `Env` inherits
the caller's environment, a non-nil `Env` is used verbatim. -/
def execEffectiveEnv (cmdEnv : Option (List String)) (callerEnv : List String) :
    List String :=
  match cmdEnv with
  | none => callerEnv
  | some e => e

/-- The environment the helm subprocess actually receives for a caller
environment `callerEnv`, per `runHelmCommand`. -/
def runHelmChildEnv (callerEnv : List String) (helmHome : String) : List String :=
  execEffectiveEnv (runHelmCmdEnv helmHome) callerEnv

/-- Continuation of a greedy `(\.\d+)+` match while inside a group's digit
run: further digits extend the group; a dot followed by a digit starts the
next group; anything else (including a trailing dot or a dot followed by a
non-digit) ends the match with only complete groups consumed, as Go's
greedy matching of this pattern does. -/
def vTail : List Char → List Char
  | [] => []
  | c :: rest =>
    if c.isDigit then c :: vTail rest
    else if c = '.' then
      match rest with
      | [] => []
      | d :: rest2 => if d.isDigit then '.' :: d :: vTail rest2 else []
    else []

/-- Greedy match of `(\.\d+)+` (one or more groups of a dot followed by at
least one digit) at the front of a character list, returning the consumed
characters; `[]` when no complete group starts here. -/
def vGroups : List Char → List Char
  | '.' :: d :: rest => if d.isDigit then '.' :: d :: vTail rest else []
  | _ => []

/-- Match of the Go regexp `v\d+(\.\d+)+` anchored at the front of the
character list: a `v`, a maximal non-empty digit run, then at least one
`.digits` group, greedily.  Returns the matched characters, or `none` when
no match starts here. -/
def matchVersionAt : List Char → Option (List Char)
  | 'v' :: rest =>
    let ds := rest.takeWhile Char.isDigit
    if ds = [] then none
    else
      let gs := vGroups (rest.dropWhile Char.isDigit)
      if gs = [] then none else some ('v' :: (ds ++ gs))
  | _ => none

/-- Leftmost match of the Go regexp `v\d+(\.\d+)+` in a character list,
as computed by `regexp.Find`: the first position admitting a match wins. -/
def findVersion : List Char → Option (List Char)
  | [] => none
  | c :: rest =>
    match matchVersionAt (c :: rest) with
    | some m => some m
    | none => findVersion rest

/-- `strings.Split(v, ".")[0]`: the characters of `v` before the first
dot. -/
def splitFirstDot (v : List Char) : List Char :=
  v.takeWhile (fun c => c ≠ '.')

/-- Outcome of the version gate applied to the output of
`helm version -c --short`. -/
inductive VersionOutcome where
  | ok
  | err (msg : String)
  | panicked
  deriving Repr, DecidableEq

/-- The version-parsing tail of `checkHelmVersion`: find the regexp match
in the stdout bytes, strip the leading character with `[1:]`, split on `.`
and compare the first component with `"3"`.  When `Find` returns no match,
`string(r.Find(stdout))` is the empty string and the `[1:]` slice is out
of range, so the Go code panics: modelled by `VersionOutcome.panicked`. -/
def parseHelmVersion (stdout : String) : VersionOutcome :=
  match findVersion stdout.data with
  | none => VersionOutcome.panicked
  | some m =>
    let v := m.drop 1
    let majorVersion := String.mk (splitFirstDot v)
    if majorVersion = "3" then VersionOutcome.ok
    else VersionOutcome.err ("this plugin requires helm V3 but got v" ++ String.mk v)

/-- What `os.Stat` reports for a path: a directory, some other existing
file, or an error (file absent). -/
inductive FStat where
  | dir
  | file
  | absent
  deriving Repr, DecidableEq

/-- Oracle for the outside world during `Generate`: the result of running
the helm binary with given arguments (stdout on success, the wrapped error
otherwise), and what `os.Stat` reports for each path. -/
structure World where
  helm : List String → Except String String
  stat : String → FStat

/-- Arguments of the version query issued by `checkHelmVersion`. -/
def helmVersionArgs : List String := ["version", "-c", "--short"]

/-- `checkHelmVersion`: run `helm version -c --short`, propagate a command
error, otherwise parse the reported version. -/
def checkHelmVersion (w : World) : VersionOutcome :=
  match w.helm helmVersionArgs with
  | Except.error e => VersionOutcome.err e
  | Except.ok stdout => parseHelmVersion stdout

/-- `checkLocalChart`: the chart is present iff `os.Stat` on
`<chartHome>/<chartName>` succeeds and reports a directory; a stat error
or a non-directory yields `false`. -/
def checkLocalChart (p : Plugin) (w : World) : Bool :=
  match w.stat (goPathJoin [p.args.chartHome, p.args.chartName]) with
  | FStat.dir => true
  | FStat.file => false
  | FStat.absent => false

/-- `getPullCommandArgs`: `pull --untar --untardir <chartHome>`, then
`--version` when a chart version is set, then `--repo` when a repository
URL is set (which also switches the chart reference from
`<chartRepoName>/<chartName>` to the bare `<chartName>`), then the chart
reference. -/
def getPullCommandArgs (p : Plugin) : List String :=
  let args := ["pull", "--untar", "--untardir", p.args.chartHome]
  let chartName := p.args.chartRepoName ++ "/" ++ p.args.chartName
  let args :=
    if p.args.chartVersion ≠ "" then args ++ ["--version", p.args.chartVersion]
    else args
  let ref := if p.args.chartRepoURL ≠ "" then p.args.chartName else chartName
  let args :=
    if p.args.chartRepoURL ≠ "" then args ++ ["--repo", p.args.chartRepoURL]
    else args
  args ++ [ref]

/-- `getTemplateCommandArgs`: `template`, the release name when set, the
chart directory, `--namespace` when set, `--values` when set, then the
extra arguments verbatim. -/
def getTemplateCommandArgs (p : Plugin) : List String :=
  let args := ["template"]
  let args := if p.args.releaseName ≠ "" then args ++ [p.args.releaseName] else args
  let args := args ++ [goPathJoin [p.args.chartHome, p.args.chartName]]
  let args :=
    if p.args.releaseNamespace ≠ "" then args ++ ["--namespace", p.args.releaseNamespace]
    else args
  let args := if p.args.values ≠ "" then args ++ ["--values", p.args.values] else args
  args ++ p.args.extraArgs

/-- Side effects of a `Generate` run: helm subprocess invocations and the
recursive deletion of the temporary directory. -/
inductive GenEffect where
  | runHelm (args : List String)
  | removeAll (dir : String)
  deriving Repr, DecidableEq

/-- Result of a `Generate` run: the rendered stdout bytes handed to the
resource-map factory, an error, or a propagated panic from
`checkHelmVersion`. -/
inductive GenResult where
  | ok (stdout : String)
  | err (msg : String)
  | panicked
  deriving Repr, DecidableEq

/-- The body of `Generate` before the deferred cleanup: version gate, then
pull unless the chart is already local, then template; each step
short-circuits on failure.  The effect trace records every helm
invocation in order. -/
def generateBody (p : Plugin) (w : World) : List GenEffect × GenResult :=
  match checkHelmVersion w with
  | VersionOutcome.panicked => ([GenEffect.runHelm helmVersionArgs], GenResult.panicked)
  | VersionOutcome.err e => ([GenEffect.runHelm helmVersionArgs], GenResult.err e)
  | VersionOutcome.ok =>
    let pullPhase : List GenEffect × Option String :=
      if checkLocalChart p w then ([], none)
      else
        match w.helm (getPullCommandArgs p) with
        | Except.error e => ([GenEffect.runHelm (getPullCommandArgs p)], some e)
        | Except.ok _ => ([GenEffect.runHelm (getPullCommandArgs p)], none)
    match pullPhase with
    | (es, some e) => (GenEffect.runHelm helmVersionArgs :: es, GenResult.err e)
    | (es, none) =>
      match w.helm (getTemplateCommandArgs p) with
      | Except.error e =>
        (GenEffect.runHelm helmVersionArgs :: es
           ++ [GenEffect.runHelm (getTemplateCommandArgs p)], GenResult.err e)
      | Except.ok stdout =>
        (GenEffect.runHelm helmVersionArgs :: es
           ++ [GenEffect.runHelm (getTemplateCommandArgs p)], GenResult.ok stdout)

/-- `Generate`: the body with `defer os.RemoveAll(p.tmpDir)`, which in Go
runs on every exit path (normal return or panic), so the deletion is the
final effect of every trace. -/
def generate (p : Plugin) (w : World) : List GenEffect × GenResult :=
  ((generateBody p w).1 ++ [GenEffect.removeAll p.tmpDir], (generateBody p w).2)

/-! Concrete sample inputs used by witnesses. -/

/-- A resolved plugin state as produced by `Config` for
`{chartName: "nginx"}` with temporary directory `/tmp/k`. -/
def samplePlugin : Plugin :=
  { args := { chartName := "nginx", chartRepoName := "stable",
              chartHome := "/tmp/k/chart", helmBin := "helm",
              helmHome := "/tmp/k/.helm",
              values := "/tmp/k/chart/nginx/values.yaml" }
    tmpDir := "/tmp/k" }

/-- A world where helm reports version v3.2.1, every command succeeds, and
the chart directory exists. -/
def worldDirV3 : World :=
  { helm := fun args =>
      if args = helmVersionArgs then Except.ok "v3.2.1" else Except.ok "manifest"
    stat := fun _ => FStat.dir }

/-- Like `worldDirV3`, but no path exists. -/
def worldAbsentV3 : World :=
  { helm := fun args =>
      if args = helmVersionArgs then Except.ok "v3.2.1" else Except.ok "manifest"
    stat := fun _ => FStat.absent }

/-- Like `worldDirV3`, but every path is a regular file. -/
def worldFileV3 : World :=
  { helm := fun args =>
      if args = helmVersionArgs then Except.ok "v3.2.1" else Except.ok "manifest"
    stat := fun _ => FStat.file }

/-! Helper lemmas. -/

/-- Flattened form of the pull argument list. -/
lemma pullArgs_flat (p : Plugin) :
    getPullCommandArgs p =
      ["pull", "--untar", "--untardir", p.args.chartHome]
        ++ (if p.args.chartVersion ≠ "" then ["--version", p.args.chartVersion] else [])
        ++ (if p.args.chartRepoURL ≠ "" then ["--repo", p.args.chartRepoURL] else [])
        ++ [if p.args.chartRepoURL ≠ "" then p.args.chartName
            else p.args.chartRepoName ++ "/" ++ p.args.chartName] := by
  unfold getPullCommandArgs
  split_ifs <;> rfl

/-- Flattened form of the template argument list. -/
lemma templateArgs_flat (p : Plugin) :
    getTemplateCommandArgs p =
      ["template"]
        ++ (if p.args.releaseName ≠ "" then [p.args.releaseName] else [])
        ++ [goPathJoin [p.args.chartHome, p.args.chartName]]
        ++ (if p.args.releaseNamespace ≠ ""
            then ["--namespace", p.args.releaseNamespace] else [])
        ++ (if p.args.values ≠ "" then ["--values", p.args.values] else [])
        ++ p.args.extraArgs := by
  unfold getTemplateCommandArgs
  split_ifs <;> rfl

/-- The pull argument list always starts with `"pull"`. -/
lemma pullArgs_head (p : Plugin) : ∃ t, getPullCommandArgs p = "pull" :: t := by
  rw [pullArgs_flat]
  exact ⟨_, rfl⟩

/-- A pull invocation is never the version query. -/
lemma pullArgs_ne_versionArgs (p : Plugin) : getPullCommandArgs p ≠ helmVersionArgs := by
  obtain ⟨t, ht⟩ := pullArgs_head p
  rw [ht]
  intro hcontra
  exact absurd (List.head_eq_of_cons_eq hcontra) (by decide)

/-- A pull invocation is never a template invocation. -/
lemma pullArgs_ne_templateArgs (p q : Plugin) :
    getPullCommandArgs p ≠ getTemplateCommandArgs q := by
  obtain ⟨t, ht⟩ := pullArgs_head p
  rw [ht, templateArgs_flat]
  intro hcontra
  exact absurd (List.head_eq_of_cons_eq hcontra) (by decide)

/-- The pull invocation occurs in the `generateBody` trace exactly when the
version gate succeeded and the chart was not found locally. -/
lemma generateBody_pull_mem (p : Plugin) (w : World) :
    GenEffect.runHelm (getPullCommandArgs p) ∈ (generateBody p w).1
      ↔ (checkHelmVersion w = VersionOutcome.ok ∧ checkLocalChart p w = false) := by
  unfold generateBody
  cases hv : checkHelmVersion w <;>
    simp only [hv, List.mem_singleton, List.mem_cons, List.mem_append]
  case err e =>
    simp [pullArgs_ne_versionArgs p]
  case panicked =>
    simp [pullArgs_ne_versionArgs p]
  case ok =>
    cases hl : checkLocalChart p w <;> simp only [hl, if_true, if_false, Bool.false_eq_true]
    · cases hp : w.helm (getPullCommandArgs p) <;>
        cases ht : w.helm (getTemplateCommandArgs p) <;>
          simp [hp, ht, pullArgs_ne_versionArgs p]
    · cases ht : w.helm (getTemplateCommandArgs p) <;>
        simp [ht, pullArgs_ne_versionArgs p, pullArgs_ne_templateArgs p p]

/-- Membership in a `generate` trace for a helm invocation coincides with
membership in the body's trace (the appended cleanup is not a helm call). -/
lemma generate_runHelm_mem (p : Plugin) (w : World) (args : List String) :
    GenEffect.runHelm args ∈ (generate p w).1
      ↔ GenEffect.runHelm args ∈ (generateBody p w).1 := by
  unfold generate
  simp

/-! Claim theorems. -/

/-- C1, counterexample: for the concrete configuration with empty chart
name, `Config` does fail with the missing-chart-name error, but the
temporary working directory has already been allocated before the failure,
refuting the claim that no filesystem work happens before failing. -/
theorem config_emptyName_cex :
    (Config { chartName := "" } "/tmp/kust").2 = Except.error "chartName cannot be empty"
      ∧ ConfigEffect.allocTmpDir ∈ (Config { chartName := "" } "/tmp/kust").1 := by
  constructor
  · rfl
  · decide

/-- C1, amended: for every configuration whose chart name is the empty
string, `Config` fails with the missing-chart-name error, and the only
filesystem or process work it performs before failing is the allocation of
the temporary working directory (which happens unconditionally, before the
chart-name check). -/
theorem config_emptyName_fails_after_alloc (cfg : HelmChartArgs) (tmpDir : String)
    (h : cfg.chartName = "") :
    Config cfg tmpDir = ([ConfigEffect.allocTmpDir], Except.error "chartName cannot be empty") := by
  unfold Config
  rw [if_pos h]

/-- C1, witness for the amended theorem at a concrete input. -/
theorem config_emptyName_fails_after_alloc_witness :
    Config { chartName := "" } "/tmp/kust"
      = ([ConfigEffect.allocTmpDir], Except.error "chartName cannot be empty") :=
  config_emptyName_fails_after_alloc { chartName := "" } "/tmp/kust" rfl

/-- C2, counterexample: a caller environment variable (`PATH`) is not in
the environment the helm subprocess receives, refuting the claim that the
child environment contains everything from the caller's environment. -/
theorem runHelm_env_drops_caller_cex :
    "PATH=/usr/bin" ∈ ["PATH=/usr/bin"]
      ∧ "PATH=/usr/bin" ∉ runHelmChildEnv ["PATH=/usr/bin"] "/helm/home" := by
  constructor
  · decide
  · decide

/-- C2, amended: the helm subprocess runs with an environment consisting of
exactly the three isolation variables (config home at the helm home, cache
and data homes under it), for every caller environment: `cmd.Env` is built
by appending to a nil slice, which replaces the inherited environment
rather than extending it, so every pre-existing variable is dropped. -/
theorem runHelm_env_exactly_isolation_vars (callerEnv : List String) (helmHome : String) :
    runHelmChildEnv callerEnv helmHome = helmIsolationVars helmHome := rfl

/-- C4: the code does not return an unparseable-version error on a
version-query output with no `v<digits>(.<digits>)+` substring; instead
`string(r.Find(stdout))[1:]` slices the empty string out of range and the
program panics, as evaluated here on the concrete output
`"Client version: two.one"`. -/
theorem parseHelmVersion_noMatch_panics :
    findVersion ("Client version: two.one").data = none
      ∧ parseHelmVersion "Client version: two.one" = VersionOutcome.panicked := by
  constructor
  · decide
  · decide

/-- C6: for every configuration, the pull argument list is exactly
`pull --untar --untardir <chartHome>`, then `--version <v>` when the chart
version is non-empty, then `--repo <url>` when the repository URL is
non-empty, ending with the chart reference: the bare chart name when a
repository URL is set, and `<chartRepoName>/<chartName>` otherwise. -/
theorem getPullCommandArgs_spec (p : Plugin) :
    getPullCommandArgs p =
      ["pull", "--untar", "--untardir", p.args.chartHome]
        ++ (if p.args.chartVersion ≠ "" then ["--version", p.args.chartVersion] else [])
        ++ (if p.args.chartRepoURL ≠ "" then ["--repo", p.args.chartRepoURL] else [])
        ++ [if p.args.chartRepoURL ≠ "" then p.args.chartName
            else p.args.chartRepoName ++ "/" ++ p.args.chartName] :=
  pullArgs_flat p

/-- C7: for every configuration, the template argument list is exactly
`template`, the release name only when non-empty, the chart directory
`<chartHome>/<chartName>`, `--namespace <ns>` only when the namespace is
non-empty, `--values <path>` only when the values path is non-empty, then
the extra arguments appended verbatim. -/
theorem getTemplateCommandArgs_spec (p : Plugin) :
    getTemplateCommandArgs p =
      ["template"]
        ++ (if p.args.releaseName ≠ "" then [p.args.releaseName] else [])
        ++ [goPathJoin [p.args.chartHome, p.args.chartName]]
        ++ (if p.args.releaseNamespace ≠ ""
            then ["--namespace", p.args.releaseNamespace] else [])
        ++ (if p.args.values ≠ "" then ["--values", p.args.values] else [])
        ++ p.args.extraArgs :=
  templateArgs_flat p

/-- C8: for every plugin state and every world (hence on every exit path:
success, version-gate failure or panic, pull failure, template failure),
the last effect of a `Generate` run is the recursive deletion of the
temporary working directory. -/
theorem generate_removes_tmpDir_last (p : Plugin) (w : World) :
    (generate p w).1.getLast? = some (GenEffect.removeAll p.tmpDir) := by
  unfold generate
  exact List.getLast?_concat _

/-- C3: for every version-query output in which the regexp finds the match
`m`, the version gate succeeds if and only if the first dot-separated
component of `m` after stripping the leading `v` equals `"3"`; for any
other major version it fails with an error naming the detected version. -/
theorem parseHelmVersion_major3 (stdout : String) (m : List Char)
    (h : findVersion stdout.data = some m) :
    (parseHelmVersion stdout = VersionOutcome.ok
       ↔ String.mk (splitFirstDot (m.drop 1)) = "3")
    ∧ (String.mk (splitFirstDot (m.drop 1)) ≠ "3" →
        parseHelmVersion stdout
          = VersionOutcome.err
              ("this plugin requires helm V3 but got v" ++ String.mk (m.drop 1))) := by
  have hbody : parseHelmVersion stdout =
      (if String.mk (splitFirstDot (m.drop 1)) = "3" then VersionOutcome.ok
       else VersionOutcome.err
         ("this plugin requires helm V3 but got v" ++ String.mk (m.drop 1))) := by
    unfold parseHelmVersion
    rw [h]
  rw [hbody]
  by_cases hm : String.mk (splitFirstDot (m.drop 1)) = "3"
  · rw [if_pos hm]
    exact ⟨⟨fun _ => hm, fun _ => rfl⟩, fun hne => absurd hm hne⟩
  · rw [if_neg hm]
    refine ⟨⟨fun hcontra => ?_, fun h3 => absurd h3 hm⟩, fun _ => rfl⟩
    simp at hcontra

/-- C3, witness: the gate accepts the output `v3.4.1` and rejects the
output `version v2.17.0` naming the detected version `2.17.0`. -/
theorem parseHelmVersion_major3_witness :
    parseHelmVersion "v3.4.1" = VersionOutcome.ok
      ∧ parseHelmVersion "version v2.17.0"
          = VersionOutcome.err "this plugin requires helm V3 but got v2.17.0" := by
  constructor
  · exact (parseHelmVersion_major3 "v3.4.1" "v3.4.1".data (by decide)).1.mpr (by decide)
  · exact (parseHelmVersion_major3 "version v2.17.0" "v2.17.0".data (by decide)).2 (by decide)

/-- C5: when the chart directory already exists, no pull invocation occurs
in a `Generate` run, regardless of all other configuration fields; and in
any run whose version gate succeeds, a pull invocation occurs if and only
if the local-chart check failed. -/
theorem generate_pull_iff_not_local (p : Plugin) (w : World) :
    (checkLocalChart p w = true →
       GenEffect.runHelm (getPullCommandArgs p) ∉ (generate p w).1)
    ∧ (checkHelmVersion w = VersionOutcome.ok →
       (GenEffect.runHelm (getPullCommandArgs p) ∈ (generate p w).1
         ↔ checkLocalChart p w = false)) := by
  constructor
  · intro hlocal
    rw [generate_runHelm_mem, generateBody_pull_mem]
    simp [hlocal]
  · intro hok
    rw [generate_runHelm_mem, generateBody_pull_mem]
    simp [hok]

/-- C5, witness: with the chart directory present no pull is issued, and
with it absent the pull characterization holds, at concrete inputs. -/
theorem generate_pull_iff_not_local_witness :
    (GenEffect.runHelm (getPullCommandArgs samplePlugin)
        ∉ (generate samplePlugin worldDirV3).1)
    ∧ (GenEffect.runHelm (getPullCommandArgs samplePlugin)
          ∈ (generate samplePlugin worldAbsentV3).1
        ↔ checkLocalChart samplePlugin worldAbsentV3 = false) :=
  ⟨(generate_pull_iff_not_local samplePlugin worldDirV3).1 (by decide),
   (generate_pull_iff_not_local samplePlugin worldAbsentV3).2 (by decide)⟩

/-- C9: for every configuration with the five defaulted fields unset and a
non-empty chart name, `Config` succeeds, resolves chart home to
`<tmpDir>/chart`, repository alias to `"stable"`, binary to `"helm"`,
helm home to `<tmpDir>/.helm`, and the values path to
`<chartHome>/<chartName>/values.yaml` built from the already-resolved
chart home. -/
theorem config_defaults_values_path (cfg : HelmChartArgs) (tmpDir : String)
    (hname : cfg.chartName ≠ "") (h1 : cfg.chartHome = "") (h2 : cfg.chartRepoName = "")
    (h3 : cfg.helmBin = "") (h4 : cfg.helmHome = "") (h5 : cfg.values = "") :
    ∃ p, (Config cfg tmpDir).2 = Except.ok p
      ∧ p.args.chartHome = goPathJoin [tmpDir, "chart"]
      ∧ p.args.chartRepoName = "stable"
      ∧ p.args.helmBin = "helm"
      ∧ p.args.helmHome = goPathJoin [tmpDir, ".helm"]
      ∧ p.args.chartName = cfg.chartName
      ∧ p.args.values = goPathJoin [p.args.chartHome, p.args.chartName, "values.yaml"] := by
  unfold Config
  rw [if_neg hname]
  simp only [h1, h2, h3, h4, h5]
  exact ⟨_, rfl, rfl, rfl, rfl, rfl, rfl, rfl⟩

/-- C9, witness: the defaults at `{chartName: "nginx"}` with temporary
directory `/tmp/k`. -/
theorem config_defaults_values_path_witness :
    ∃ p, (Config { chartName := "nginx" } "/tmp/k").2 = Except.ok p
      ∧ p.args.chartHome = goPathJoin ["/tmp/k", "chart"]
      ∧ p.args.chartRepoName = "stable"
      ∧ p.args.helmBin = "helm"
      ∧ p.args.helmHome = goPathJoin ["/tmp/k", ".helm"]
      ∧ p.args.chartName = "nginx"
      ∧ p.args.values = goPathJoin [p.args.chartHome, p.args.chartName, "values.yaml"] :=
  config_defaults_values_path { chartName := "nginx" } "/tmp/k"
    (by decide) rfl rfl rfl rfl rfl

/-- C10: when `<chartHome>/<chartName>` exists but is a regular file, the
local-chart check reports the chart as absent, and any run whose version
gate succeeds issues the pull invocation. -/
theorem generate_fetches_nonDir (p : Plugin) (w : World)
    (hfile : w.stat (goPathJoin [p.args.chartHome, p.args.chartName]) = FStat.file) :
    checkLocalChart p w = false
    ∧ (checkHelmVersion w = VersionOutcome.ok →
        GenEffect.runHelm (getPullCommandArgs p) ∈ (generate p w).1) := by
  have hl : checkLocalChart p w = false := by
    unfold checkLocalChart
    rw [hfile]
  refine ⟨hl, fun hok => ?_⟩
  rw [generate_runHelm_mem, generateBody_pull_mem]
  exact ⟨hok, hl⟩

/-- C10, witness: at concrete inputs where the chart path is a regular
file, the check fails and the pull command is issued. -/
theorem generate_fetches_nonDir_witness :
    checkLocalChart samplePlugin worldFileV3 = false
    ∧ GenEffect.runHelm (getPullCommandArgs samplePlugin)
        ∈ (generate samplePlugin worldFileV3).1 :=
  ⟨(generate_fetches_nonDir samplePlugin worldFileV3 (by decide)).1,
   (generate_fetches_nonDir samplePlugin worldFileV3 (by decide)).2 (by decide)⟩

end HelmGen
